import Mathlib

/-!
Verification of the security-group drift detector (`src/lambda/drift_detector.py`).

The Python module is shallowly embedded here.  Firewall rules are dynamically
typed dictionaries in the source; we embed them as `Drift.Rule`, whose source
collections (`IpRanges`, `Ipv6Ranges`, `PrefixListIds`, `UserIdGroupPairs`)
hold `Drift.Entry` values: an entry is either a mapping (possibly missing its
identifying key, possibly carrying extra non-semantic keys), a plain string, or
Python `None`.  Fallible Python code (sorting `None` against a string raises
`TypeError`; calling `.get` on a string or on `None` raises `AttributeError`)
is embedded in `Except Drift.PyErr`.  External collaborators (the EC2 revoke
API, SNS, SSM, the Slack webhook) are passed in as oracles, and the calls made
to them are returned as an explicit trace.
-/

deriving instance DecidableEq for Except

namespace Drift

/-- Uncaught Python exception kinds the embedded code can raise. -/
inductive PyErr where
  /-- `AttributeError`: `.get` called on a non-dict (a string or `None`). -/
  | attributeError
  /-- `TypeError`: `<` applied to `None` during `sorted`. -/
  | typeError
deriving DecidableEq, Repr

/-- One element of a rule's source collection, as the dynamically typed Python
value it is: a dict whose identifying key (`CidrIp`, `CidrIpv6`,
`PrefixListId` or `GroupId`, depending on the collection) maps to `val`
(`none` when the key is absent) and which may carry extra non-semantic keys;
or a plain string; or Python `None`. -/
inductive Entry where
  | dict (val : Option String) (extra : List (String × String))
  | str (s : String)
  | pyNone
deriving DecidableEq, Repr

/-- Returns `true` when the entry is a mapping, so `.get` succeeds on it. -/
def Entry.isDict : Entry → Bool
  | .dict _ _ => true
  | _ => false

/-- Returns `true` when the entry is a mapping carrying its identifying key. -/
def Entry.hasVal : Entry → Bool
  | .dict (some _) _ => true
  | _ => false

/-- The identifying value of an entry (`none` for non-dicts or a missing key). -/
def Entry.val : Entry → Option String
  | .dict v _ => v
  | _ => none

/-- A security-group rule as the Python dict shape used throughout
`drift_detector.py`.  `none` for `ipProtocol` / `fromPort` / `toPort` stands
for the key being absent.  `extra` holds AWS-added non-semantic keys. -/
structure Rule where
  ipProtocol : Option String
  fromPort : Option Int
  toPort : Option Int
  ipRanges : List Entry
  ipv6Ranges : List Entry
  prefixListIds : List Entry
  userIdGroupPairs : List Entry
  extra : List (String × String)
deriving DecidableEq, Repr

/-- The dict produced by `normalize_rule`: a field is `none` exactly when the
corresponding key was dropped by the `if v` comprehension filter.  A retained
source collection is the sorted list of projected identifying values
(an element is `none` when the projected entry lacked the key). -/
structure NormalizedRule where
  ipProtocol : Option String
  fromPort : Option Int
  toPort : Option Int
  ipRanges : Option (List (Option String))
  ipv6Ranges : Option (List (Option String))
  prefixListIds : Option (List (Option String))
  userIdGroupPairs : Option (List (Option String))
deriving DecidableEq, Repr

/-- Python's lexicographic string order, compared code point by code point
(the order `sorted` uses on `str`). -/
def lexLE : List Char → List Char → Bool
  | [], _ => true
  | _ :: _, [] => false
  | a :: as, b :: bs =>
    if a.toNat < b.toNat then true
    else if b.toNat < a.toNat then false
    else lexLE as bs

/-- Python's `a <= b` on strings, as `strLE a b`. -/
def strLE (a b : String) : Bool := lexLE a.toList b.toList

/-- The comparison `sorted` would use on projected identifying values when no
`None` is involved; the `none` cases are never reached by `pySorted` (mixing
`None` raises before any order is consulted). -/
def optLE : Option String → Option String → Bool
  | none, _ => true
  | some _, none => false
  | some a, some b => strLE a b

/-- Insert into a sorted list (helper of `pySort`). -/
def insertSorted (a : Option String) : List (Option String) → List (Option String)
  | [] => [a]
  | b :: bs => if optLE a b then a :: b :: bs else b :: insertSorted a bs

/-- Ascending sort; produces the same list as Python `sorted` (any sort does,
since `optLE` is an antisymmetric total preorder on the values involved). -/
def pySort : List (Option String) → List (Option String)
  | [] => []
  | a :: as => insertSorted a (pySort as)

/-- Python `sorted` on a list of projected identifying values.  With at least
two elements, every element takes part in a comparison, so a `None` anywhere
raises `TypeError`; otherwise the sorted list is returned. -/
def pySorted (l : List (Option String)) : Except PyErr (List (Option String)) :=
  if 2 ≤ l.length ∧ none ∈ l then .error .typeError
  else .ok (pySort l)

/-- Embeds `r.get(key)` for the identifying key of a collection entry:
`AttributeError` on a non-dict, otherwise the key's value or `None`. -/
def projEntry : Entry → Except PyErr (Option String)
  | .dict v _ => .ok v
  | _ => .error .attributeError

/-- Embeds `sorted([r.get(key) for r in collection])` for one collection. -/
def normSources (l : List Entry) : Except PyErr (List (Option String)) := do
  let vs ← l.mapM projEntry
  pySorted vs

/-- The `if v` filter of `normalize_rule` on a string-valued field:
`None` and the empty string are falsy and dropped. -/
def keepStr : Option String → Option String
  | some s => if s = "" then none else some s
  | none => none

/-- The `if v` filter on an integer-valued field: `None` and `0` are falsy. -/
def keepInt : Option Int → Option Int
  | some n => if n = 0 then none else some n
  | none => none

/-- The `if v` filter on a sorted source list: only the empty list is falsy. -/
def keepList (l : List (Option String)) : Option (List (Option String)) :=
  if l = [] then none else some l

/-- Embeds `normalize_rule` (drift_detector.py:241-265): project each source
collection to its identifying key, sort, then drop falsy fields. -/
def normalize_rule (r : Rule) : Except PyErr NormalizedRule := do
  let ip ← normSources r.ipRanges
  let ip6 ← normSources r.ipv6Ranges
  let pl ← normSources r.prefixListIds
  let ug ← normSources r.userIdGroupPairs
  pure { ipProtocol := keepStr r.ipProtocol
         fromPort := keepInt r.fromPort
         toPort := keepInt r.toPort
         ipRanges := keepList ip
         ipv6Ranges := keepList ip6
         prefixListIds := keepList pl
         userIdGroupPairs := keepList ug }

/-- Embeds `rules_match` (drift_detector.py:268-279): Python dict equality. -/
def rules_match (rule1 rule2 : NormalizedRule) : Bool := rule1 == rule2

/-- The loop of `is_rule_in_baseline`: normalize baseline rules one at a time,
returning `True` at the first match (later baseline rules are not touched). -/
def findMatch (n : NormalizedRule) : List Rule → Except PyErr Bool
  | [] => .ok false
  | b :: bs => do
    let nb ← normalize_rule b
    if rules_match n nb then .ok true else findMatch n bs

/-- Embeds `is_rule_in_baseline` (drift_detector.py:219-238). -/
def is_rule_in_baseline (rule : Rule) (baseline_rules : List Rule) :
    Except PyErr Bool := do
  let n ← normalize_rule rule
  findMatch n baseline_rules

/-- Embeds `r.get(key, default)` inside `format_rule_summary`:
`AttributeError` on non-dict entries, otherwise the value, defaulted. -/
def getEntryD (dflt : String) : Entry → Except PyErr String
  | .dict v _ => .ok (v.getD dflt)
  | _ => .error .attributeError

/-- Renders `FromPort` / `ToPort` the way the f-strings do:
`str(n)` for a present port, the `'all'` default for an absent one. -/
def portStr : Option Int → String
  | some n => toString n
  | none => "all"

/-- Embeds `format_rule_summary` (drift_detector.py:352-378): protocol and ports are
read with `'all'` defaults; CIDR, IPv6-CIDR and group-id sources are joined in
that order with falsy entries filtered, `'unknown'` if none survive. -/
def format_rule_summary (rule : Rule) : Except PyErr String := do
  let cidrs ← rule.ipRanges.mapM (getEntryD "")
  let ipv6_cidrs ← rule.ipv6Ranges.mapM (getEntryD "")
  let groups ← rule.userIdGroupPairs.mapM (getEntryD "")
  let sources := cidrs ++ ipv6_cidrs ++ groups
  let filtered := sources.filter (fun s => !(s == ""))
  let sources_str := if filtered.isEmpty then "unknown"
    else String.intercalate ", " filtered
  let protocol := rule.ipProtocol.getD "all"
  if protocol = "-1" then
    pure ("All traffic from " ++ sources_str)
  else if rule.fromPort = rule.toPort then
    pure ("Protocol " ++ protocol ++ ", Port " ++ portStr rule.fromPort ++
      " from " ++ sources_str)
  else
    pure ("Protocol " ++ protocol ++ ", Ports " ++ portStr rule.fromPort ++
      "-" ++ portStr rule.toPort ++ " from " ++ sources_str)

/-- The `baseline_rules` document: `compare_rules` reads the `ingress` /
`egress` keys with `.get(_, [])`, so either key may be absent (`none`). -/
structure BaselineRules where
  ingress : Option (List Rule)
  egress : Option (List Rule)

/-- The live rules from `get_current_sg_rules`: both keys always present. -/
structure CurrentRules where
  ingress : List Rule
  egress : List Rule

/-- The `unauthorized` dict built by `compare_rules`. -/
structure Unauthorized where
  ingress : List Rule
  egress : List Rule
deriving DecidableEq, Repr

/-- The result dict of `compare_rules`. -/
structure DriftInfo where
  has_drift : Bool
  unauthorized : Unauthorized
  total_unauthorized : Nat
deriving DecidableEq, Repr

/-- One direction's loop of `compare_rules`: a live rule with no baseline
match is appended to the unauthorized list (after the `logger.warning` call,
which formats the rule and can itself raise on malformed entries). -/
def compareDir (base : List Rule) : List Rule → Except PyErr (List Rule)
  | [] => .ok []
  | r :: rs => do
    let inBase ← is_rule_in_baseline r base
    if inBase then compareDir base rs
    else do
      let _ ← format_rule_summary r
      let rest ← compareDir base rs
      pure (r :: rest)

/-- Embeds `compare_rules` (drift_detector.py:180-216). -/
def compare_rules (baseline : BaselineRules) (current : CurrentRules) :
    Except PyErr DriftInfo := do
  let ui ← compareDir (baseline.ingress.getD []) current.ingress
  let ue ← compareDir (baseline.egress.getD []) current.egress
  pure { has_drift := !ui.isEmpty || !ue.isEmpty
         unauthorized := { ingress := ui, egress := ue }
         total_unauthorized := ui.length + ue.length }

/-- Rule direction; remediation processes ingress strictly before egress. -/
inductive Direction where
  | ingress
  | egress
deriving DecidableEq, Repr

/-- An element of `results['revoked']`. -/
structure RevokedItem where
  type : Direction
  rule : String
deriving DecidableEq, Repr

/-- An element of `results['failed']`: the summary plus `str(e)`. -/
structure FailedItem where
  type : Direction
  rule : String
  error : String
deriving DecidableEq, Repr

/-- The result dict of `revoke_unauthorized_rules`. -/
structure RemediationResults where
  revoked : List RevokedItem
  failed : List FailedItem
deriving DecidableEq, Repr

/-- Outcome oracle for the external EC2 revoke API: `.ok` when the call
succeeds, `.error msg` when it raises a `ClientError` with message `msg`. -/
def RevokeApi : Type := Direction → Rule → Except String Unit

/-- One direction's loop of `revoke_unauthorized_rules`.  Returns the
`revoked` / `failed` entries contributed by this direction together with the
trace of revoke calls actually issued.  The summary is formatted (for the log
line) before the API call; only `ClientError` from the call is caught, so an
`AttributeError` from formatting aborts the batch with no call for that rule. -/
def revokeLoop (api : RevokeApi) (d : Direction) :
    List Rule →
    Except PyErr (List RevokedItem × List FailedItem) × List (Direction × Rule)
  | [] => (.ok ([], []), [])
  | r :: rs =>
    match format_rule_summary r with
    | .error e => (.error e, [])
    | .ok s =>
      match revokeLoop api d rs, api d r with
      | (.ok (rv, fl), tr), .ok _ => (.ok (⟨d, s⟩ :: rv, fl), (d, r) :: tr)
      | (.ok (rv, fl), tr), .error e => (.ok (rv, ⟨d, s, e⟩ :: fl), (d, r) :: tr)
      | (.error e, tr), _ => (.error e, (d, r) :: tr)

/-- Embeds `revoke_unauthorized_rules` (drift_detector.py:282-349): all unauthorized
ingress rules are attempted, then all egress rules; per-rule `ClientError`s
are recorded in `failed` and the loop continues. -/
def revoke_unauthorized_rules (api : RevokeApi) (drift_info : DriftInfo) :
    Except PyErr RemediationResults × List (Direction × Rule) :=
  match revokeLoop api .ingress drift_info.unauthorized.ingress with
  | (.error e, ti) => (.error e, ti)
  | (.ok (rvI, flI), ti) =>
    match revokeLoop api .egress drift_info.unauthorized.egress with
    | (.error e, te) => (.error e, ti ++ te)
    | (.ok (rvE, flE), te) =>
      (.ok { revoked := rvI ++ rvE, failed := flI ++ flE }, ti ++ te)

/-- The literal placeholder marker checked with `in` on the SSM value. -/
def placeholderMarker : String := "REPLACE_WITH_YOUR_WEBHOOK_URL"

/-- Prefix test over character lists (helper of the substring check). -/
def startsWithL : List Char → List Char → Bool
  | [], _ => true
  | _ :: _, [] => false
  | a :: as, b :: bs => a == b && startsWithL as bs

/-- Substring occurrence over character lists (helper of `containsMarker`). -/
def substrAt (needle : List Char) : List Char → Bool
  | [] => startsWithL needle []
  | c :: cs => startsWithL needle (c :: cs) || substrAt needle cs

/-- Embeds the Python substring test `'REPLACE_WITH_YOUR_WEBHOOK_URL' in webhook_url`. -/
def containsMarker (url : String) : Bool :=
  substrAt placeholderMarker.toList url.toList

/-- External calls the handler can issue, in the order they are made. -/
inductive Call where
  | revoke (d : Direction) (r : Rule)
  | snsPublish
  | ssmGet
  | webhookPost
deriving DecidableEq, Repr

/-- Oracles for every external collaborator of one run: the S3 baseline load,
the EC2 rule query, the EC2 revoke API, the SNS publish outcome, the SSM
parameter fetch, and the webhook POST (HTTP status, or a raised exception).
`.error` carries the exception's message. -/
structure Env where
  baseline : Except String BaselineRules
  current : Except String CurrentRules
  api : RevokeApi
  snsOk : Bool
  ssm : Except String String
  webhook : Except String Nat

/-- Embeds `send_slack_notification` (drift_detector.py:497-585): fetch the webhook
URL from SSM (a `ClientError` is logged and re-raised); silently return if it
still contains the placeholder; otherwise POST the payload (a non-200 status
is only logged; a raised exception is logged and re-raised).  The message
body, pure string formatting in the source, is not modelled.  Returns the
outcome and the trace of external calls. -/
def send_slack_notification (env : Env) : Except String Unit × List Call :=
  match env.ssm with
  | .error e => (.error e, [.ssmGet])
  | .ok url =>
    if containsMarker url then (.ok (), [.ssmGet])
    else
      match env.webhook with
      | .ok _ => (.ok (), [.ssmGet, .webhookPost])
      | .error e => (.error e, [.ssmGet, .webhookPost])

/-- Embeds `send_notifications` (drift_detector.py:414-447): the SNS publish is
attempted first, its `ClientError` caught and logged; then the Slack
notification, any exception caught and logged.  Nothing propagates, so only
the trace of calls is returned. -/
def send_notifications (env : Env) : List Call :=
  Call.snsPublish :: (send_slack_notification env).2

/-- Errors a run can end with: a `ClientError`/`ValueError` from loading
inputs, or an uncaught Python error from the comparison or remediation code. -/
inductive RunErr where
  | client (msg : String)
  | py (e : PyErr)
deriving DecidableEq, Repr

/-- The body of the handler's response dict (the source stores it
JSON-encoded): either the no-drift message or the remediation summary with
`unauthorized_rules_removed = len(results['revoked'])`. -/
inductive Body where
  | noDrift
  | remediated (unauthorized_rules_removed : Nat) (details : RemediationResults)
deriving DecidableEq, Repr

/-- The handler's response dict. -/
structure HandlerResult where
  statusCode : Nat
  body : Body
deriving DecidableEq, Repr

/-- Embeds `lambda_handler` (drift_detector.py:46-115): load baseline, fetch live
rules, compare; stop with the no-drift response when `has_drift` is false;
otherwise revoke and notify.  Any exception triggers a best-effort error
publish to SNS (its own failure swallowed) and is then re-raised.  Returns
the run outcome and the trace of external calls.  The event's user-identity
extraction is pure field access feeding only notification text and is left
out of the model. -/
def lambda_handler (env : Env) : Except RunErr HandlerResult × List Call :=
  match env.baseline with
  | .error e => (.error (.client e), [.snsPublish])
  | .ok baseline_rules =>
    match env.current with
    | .error e => (.error (.client e), [.snsPublish])
    | .ok current_rules =>
      match compare_rules baseline_rules current_rules with
      | .error e => (.error (.py e), [.snsPublish])
      | .ok drift_detected =>
        if drift_detected.has_drift then
          match revoke_unauthorized_rules env.api drift_detected with
          | (.error e, tr) =>
            (.error (.py e), tr.map (fun p => Call.revoke p.1 p.2) ++ [.snsPublish])
          | (.ok results, tr) =>
            (.ok { statusCode := 200
                   body := .remediated results.revoked.length results },
             tr.map (fun p => Call.revoke p.1 p.2) ++ send_notifications env)
        else (.ok { statusCode := 200, body := .noDrift }, [])

/-! ### Basic facts about the embedded monadic plumbing -/

@[simp] theorem ok_bind {ε α β : Type} (a : α) (f : α → Except ε β) :
    (Except.ok a >>= f) = f a := rfl

@[simp] theorem error_bind {ε α β : Type} (e : ε) (f : α → Except ε β) :
    ((Except.error e : Except ε α) >>= f) = Except.error e := rfl

@[simp] theorem pure_eq_ok {ε α : Type} (a : α) :
    (pure a : Except ε α) = Except.ok a := rfl

/-! ### The string order used by `sorted` is a total, antisymmetric preorder -/

theorem lexLE_total : ∀ x y : List Char, lexLE x y = true ∨ lexLE y x = true
  | [], _ => Or.inl rfl
  | _ :: _, [] => Or.inr rfl
  | a :: as, b :: bs => by
    rcases Nat.lt_trichotomy a.toNat b.toNat with hab | hab | hab
    · left; simp [lexLE, hab]
    · rcases lexLE_total as bs with h | h
      · left; simp [lexLE, hab, h, Nat.lt_irrefl]
      · right; simp [lexLE, hab, h, Nat.lt_irrefl]
    · right; simp [lexLE, hab]

theorem lexLE_trans : ∀ x y z : List Char,
    lexLE x y = true → lexLE y z = true → lexLE x z = true
  | [], _, _, _, _ => rfl
  | _ :: _, [], _, h, _ => by simp [lexLE] at h
  | _ :: _, _ :: _, [], _, h => by simp [lexLE] at h
  | a :: as, b :: bs, c :: cs, h1, h2 => by
    simp only [lexLE] at h1 h2 ⊢
    rcases Nat.lt_trichotomy a.toNat b.toNat with hab | hab | hab
    · rcases Nat.lt_trichotomy b.toNat c.toNat with hbc | hbc | hbc
      · rw [if_pos (Nat.lt_trans hab hbc)]
      · rw [if_pos (show a.toNat < c.toNat by omega)]
      · rw [if_neg (by omega), if_pos hbc] at h2; simp at h2
    · rw [if_neg (by omega), if_neg (by omega)] at h1
      rcases Nat.lt_trichotomy b.toNat c.toNat with hbc | hbc | hbc
      · rw [if_pos (show a.toNat < c.toNat by omega)]
      · rw [if_neg (by omega), if_neg (by omega)] at h2 ⊢
        exact lexLE_trans as bs cs h1 h2
      · rw [if_neg (by omega), if_pos hbc] at h2; simp at h2
    · rw [if_neg (by omega), if_pos hab] at h1; simp at h1

theorem lexLE_antisymm : ∀ x y : List Char,
    lexLE x y = true → lexLE y x = true → x = y
  | [], [], _, _ => rfl
  | [], _ :: _, _, h => by simp [lexLE] at h
  | _ :: _, [], h, _ => by simp [lexLE] at h
  | a :: as, b :: bs, h1, h2 => by
    simp only [lexLE] at h1 h2
    rcases Nat.lt_trichotomy a.toNat b.toNat with hab | hab | hab
    · rw [if_neg (by omega), if_pos hab] at h2; simp at h2
    · rw [if_neg (by omega), if_neg (by omega)] at h1 h2
      have hc : a = b := Char.ext (UInt32.toNat.inj hab)
      rw [hc, lexLE_antisymm as bs h1 h2]
    · rw [if_neg (by omega), if_pos hab] at h1; simp at h1

theorem strLE_total (a b : String) : strLE a b = true ∨ strLE b a = true :=
  lexLE_total _ _

theorem strLE_trans {a b c : String} (h1 : strLE a b = true)
    (h2 : strLE b c = true) : strLE a c = true :=
  lexLE_trans _ _ _ h1 h2

theorem strLE_antisymm {a b : String} (h1 : strLE a b = true)
    (h2 : strLE b a = true) : a = b :=
  String.ext (lexLE_antisymm _ _ h1 h2)

/-- The order `pySort` compares with, as a relation. -/
def optR (x y : Option String) : Prop := optLE x y = true

theorem optLE_total (a b : Option String) : optLE a b = true ∨ optLE b a = true := by
  cases a <;> cases b <;> simp [optLE]
  exact strLE_total _ _

theorem optLE_trans {a b c : Option String} (h1 : optLE a b = true)
    (h2 : optLE b c = true) : optLE a c = true := by
  cases a <;> cases b <;> cases c <;> simp_all [optLE]
  exact strLE_trans h1 h2

theorem optLE_antisymm {a b : Option String} (h1 : optLE a b = true)
    (h2 : optLE b a = true) : a = b := by
  cases a <;> cases b <;> simp_all [optLE]
  exact strLE_antisymm h1 h2

instance : IsAntisymm (Option String) optR :=
  ⟨fun _ _ h1 h2 => optLE_antisymm h1 h2⟩

/-! ### `pySort` is a canonical ascending sort -/

theorem insertSorted_perm (a : Option String) :
    ∀ l : List (Option String), (insertSorted a l).Perm (a :: l)
  | [] => List.Perm.refl _
  | b :: bs => by
    by_cases h : optLE a b = true
    · simp [insertSorted, h]
    · simp only [insertSorted, h, if_false]
      exact ((insertSorted_perm a bs).cons b).trans (List.Perm.swap a b bs)

theorem pySort_perm : ∀ l : List (Option String), (pySort l).Perm l
  | [] => List.Perm.refl _
  | a :: as => (insertSorted_perm a (pySort as)).trans ((pySort_perm as).cons a)

theorem insertSorted_sorted (a : Option String) :
    ∀ l : List (Option String), l.Sorted optR → (insertSorted a l).Sorted optR
  | [], _ => by simp [insertSorted, List.Sorted]
  | b :: bs, h => by
    rcases List.pairwise_cons.mp h with ⟨hb, hbs⟩
    by_cases hab : optLE a b = true
    · simp only [insertSorted, hab, if_true]
      refine List.pairwise_cons.mpr ⟨?_, h⟩
      intro x hx
      rcases List.mem_cons.mp hx with rfl | hx
      · exact hab
      · exact optLE_trans hab (hb x hx)
    · simp only [insertSorted, hab, if_false]
      refine List.pairwise_cons.mpr ⟨?_, insertSorted_sorted a bs hbs⟩
      intro x hx
      rcases List.mem_cons.mp ((insertSorted_perm a bs).mem_iff.mp hx) with rfl | hx
      · exact (optLE_total _ b).resolve_left hab
      · exact hb x hx

theorem pySort_sorted : ∀ l : List (Option String), (pySort l).Sorted optR
  | [] => List.sorted_nil
  | a :: as => insertSorted_sorted a (pySort as) (pySort_sorted as)

theorem pySort_canon {l l' : List (Option String)} (h : l.Perm l') :
    pySort l = pySort l' :=
  List.eq_of_perm_of_sorted
    ((pySort_perm l).trans (h.trans (pySort_perm l').symm))
    (pySort_sorted l) (pySort_sorted l')

theorem pySorted_perm {l l' : List (Option String)} (h : l.Perm l') :
    pySorted l = pySorted l' := by
  unfold pySorted
  by_cases hc : 2 ≤ l.length ∧ none ∈ l
  · rw [if_pos hc, if_pos ⟨h.length_eq ▸ hc.1, h.mem_iff.mp hc.2⟩]
  · rw [if_neg hc, if_neg ?_, pySort_canon h]
    intro hc'
    exact hc ⟨h.length_eq ▸ hc'.1, h.mem_iff.mpr hc'.2⟩

/-! ### Well-formedness of rules, and total descriptions of the embedded code -/

/-- Every entry of every source collection is a mapping (`.get` never raises).
This holds of everything the EC2 API returns. -/
def Rule.allDict (r : Rule) : Bool :=
  r.ipRanges.all Entry.isDict && r.ipv6Ranges.all Entry.isDict &&
    r.prefixListIds.all Entry.isDict && r.userIdGroupPairs.all Entry.isDict

/-- Every entry of every source collection is a mapping carrying its
identifying key, as the spec's Rule data model prescribes. -/
def Rule.wf (r : Rule) : Bool :=
  r.ipRanges.all Entry.hasVal && r.ipv6Ranges.all Entry.hasVal &&
    r.prefixListIds.all Entry.hasVal && r.userIdGroupPairs.all Entry.hasVal

theorem isDict_of_hasVal {e : Entry} (h : e.hasVal = true) : e.isDict = true := by
  cases e with
  | dict v extra => rfl
  | str s => simp [Entry.hasVal] at h
  | pyNone => simp [Entry.hasVal] at h

theorem Rule.allDict_of_wf {r : Rule} (h : r.wf = true) : r.allDict = true := by
  unfold Rule.wf at h
  unfold Rule.allDict
  simp only [Bool.and_eq_true, List.all_eq_true] at h ⊢
  exact ⟨⟨⟨fun e he => isDict_of_hasVal (h.1.1.1 e he),
    fun e he => isDict_of_hasVal (h.1.1.2 e he)⟩,
    fun e he => isDict_of_hasVal (h.1.2 e he)⟩,
    fun e he => isDict_of_hasVal (h.2 e he)⟩

theorem mapM_projEntry_ok : ∀ {l : List Entry}, l.all Entry.isDict = true →
    l.mapM projEntry = .ok (l.map Entry.val)
  | [], _ => rfl
  | e :: es, h => by
    rw [List.all_cons, Bool.and_eq_true] at h
    have h1 : projEntry e = .ok e.val := by
      cases e <;> simp_all [projEntry, Entry.isDict, Entry.val]
    rw [List.mapM_cons, h1, mapM_projEntry_ok h.2]
    rfl

theorem none_not_mem_map_val {l : List Entry} (h : l.all Entry.hasVal = true) :
    none ∉ l.map Entry.val := by
  intro hmem
  rcases List.mem_map.mp hmem with ⟨e, he, hval⟩
  have := List.all_eq_true.mp h e he
  cases e <;> simp_all [Entry.hasVal, Entry.val]

/-- What `sorted` of the projected identifying values evaluates to on a
well-formed collection. -/
def sortedVals (l : List Entry) : List (Option String) :=
  pySort (l.map Entry.val)

theorem normSources_wf {l : List Entry} (h : l.all Entry.hasVal = true) :
    normSources l = .ok (sortedVals l) := by
  unfold normSources
  rw [mapM_projEntry_ok (by
    simp only [List.all_eq_true] at h ⊢
    exact fun e he => isDict_of_hasVal (h e he))]
  rw [ok_bind]
  unfold pySorted sortedVals
  rw [if_neg (fun hc => none_not_mem_map_val h hc.2)]

/-- The normalized dict of a well-formed rule, spelled out: scalar fields are
kept when truthy (`keepStr` / `keepInt`), each source collection is the sorted
list of its identifying values (empty strings included), kept when the
collection is non-empty. -/
def normSpec (r : Rule) : NormalizedRule :=
  { ipProtocol := keepStr r.ipProtocol
    fromPort := keepInt r.fromPort
    toPort := keepInt r.toPort
    ipRanges := keepList (sortedVals r.ipRanges)
    ipv6Ranges := keepList (sortedVals r.ipv6Ranges)
    prefixListIds := keepList (sortedVals r.prefixListIds)
    userIdGroupPairs := keepList (sortedVals r.userIdGroupPairs) }

theorem normalize_rule_wf {r : Rule} (h : r.wf = true) :
    normalize_rule r = .ok (normSpec r) := by
  unfold Rule.wf at h
  simp only [Bool.and_eq_true] at h
  unfold normalize_rule
  rw [normSources_wf h.1.1.1, ok_bind, normSources_wf h.1.1.2, ok_bind,
    normSources_wf h.1.2, ok_bind, normSources_wf h.2, ok_bind]
  rfl

/-- The value `format_rule_summary` reads from one entry:
`r.get(key, '')`. -/
def entryValD (e : Entry) : String := e.val.getD ""

theorem mapM_getEntryD_ok : ∀ {l : List Entry}, l.all Entry.isDict = true →
    l.mapM (getEntryD "") = .ok (l.map entryValD)
  | [], _ => rfl
  | e :: es, h => by
    rw [List.all_cons, Bool.and_eq_true] at h
    have h1 : getEntryD "" e = .ok (entryValD e) := by
      cases e <;> simp_all [getEntryD, Entry.isDict, entryValD, Entry.val]
    rw [List.mapM_cons, h1, mapM_getEntryD_ok h.2]
    rfl

/-- The summary string of an all-dict rule, spelled out per the spec's 4.4
contract: CIDR, IPv6-CIDR and group-id sources in that fixed order, falsy
values filtered, `'unknown'` when none remain, and the three-way branch on
protocol and ports. -/
def summarySpec (r : Rule) : String :=
  let sources := r.ipRanges.map entryValD ++ r.ipv6Ranges.map entryValD ++
    r.userIdGroupPairs.map entryValD
  let filtered := sources.filter (fun s => !(s == ""))
  let sources_str := if filtered.isEmpty then "unknown"
    else String.intercalate ", " filtered
  let protocol := r.ipProtocol.getD "all"
  if protocol = "-1" then "All traffic from " ++ sources_str
  else if r.fromPort = r.toPort then
    "Protocol " ++ protocol ++ ", Port " ++ portStr r.fromPort ++
      " from " ++ sources_str
  else
    "Protocol " ++ protocol ++ ", Ports " ++ portStr r.fromPort ++
      "-" ++ portStr r.toPort ++ " from " ++ sources_str

theorem format_rule_summary_allDict {r : Rule} (h : r.allDict = true) :
    format_rule_summary r = .ok (summarySpec r) := by
  unfold Rule.allDict at h
  simp only [Bool.and_eq_true] at h
  unfold format_rule_summary
  rw [mapM_getEntryD_ok h.1.1.1, ok_bind, mapM_getEntryD_ok h.1.1.2, ok_bind,
    mapM_getEntryD_ok h.2, ok_bind]
  by_cases h1 : r.ipProtocol.getD "all" = "-1"
  · simp [summarySpec, h1]
  · by_cases h2 : r.fromPort = r.toPort <;> simp [summarySpec, h1, h2]

/-! ### Characterizing the comparator on well-formed inputs -/

theorem findMatch_wf (n : NormalizedRule) : ∀ bs : List Rule,
    (∀ b ∈ bs, b.wf = true) →
    findMatch n bs = .ok (bs.any fun b => rules_match n (normSpec b))
  | [], _ => rfl
  | b :: bs, h => by
    simp only [findMatch]
    rw [normalize_rule_wf (h b (List.mem_cons_self b bs)), ok_bind]
    by_cases hm : rules_match n (normSpec b) = true
    · simp [hm]
    · rw [if_neg hm,
        findMatch_wf n bs (fun x hx => h x (List.mem_cons_of_mem b hx))]
      simp [Bool.eq_false_iff.mpr hm]

theorem is_rule_in_baseline_wf (r : Rule) (bs : List Rule) (hr : r.wf = true)
    (hbs : ∀ b ∈ bs, b.wf = true) :
    is_rule_in_baseline r bs =
      .ok (bs.any fun b => rules_match (normSpec r) (normSpec b)) := by
  unfold is_rule_in_baseline
  rw [normalize_rule_wf hr, ok_bind, findMatch_wf _ _ hbs]

theorem compareDir_wf (base : List Rule) (hb : ∀ b ∈ base, b.wf = true) :
    ∀ l : List Rule, (∀ r ∈ l, r.wf = true) →
    compareDir base l = .ok (l.filter fun r =>
      !(base.any fun b => rules_match (normSpec r) (normSpec b)))
  | [], _ => rfl
  | r :: rs, h => by
    have hr := h r (List.mem_cons_self r rs)
    have hrs := fun x hx => h x (List.mem_cons_of_mem r hx)
    simp only [compareDir]
    rw [is_rule_in_baseline_wf r base hr hb, ok_bind]
    by_cases hm : (base.any fun b => rules_match (normSpec r) (normSpec b)) = true
    · rw [if_pos hm, compareDir_wf base hb rs hrs,
        List.filter_cons_of_neg (by simp [hm])]
    · rw [if_neg hm,
        format_rule_summary_allDict (Rule.allDict_of_wf hr), ok_bind,
        compareDir_wf base hb rs hrs, ok_bind,
        List.filter_cons_of_pos (by simp [Bool.eq_false_iff.mpr hm])]
      rfl

/-! ### Characterizing remediation -/

/-- The (pure) summary string of a rule; used to state what the remediation
loop records for each rule.  On all-dict rules this is the string
`format_rule_summary` returns. -/
def summaryOf (r : Rule) : String :=
  match format_rule_summary r with
  | .ok s => s
  | .error _ => ""

/-- The `revoked` entry a rule contributes when its revoke call succeeds. -/
def okItem (api : RevokeApi) (d : Direction) (r : Rule) : Option RevokedItem :=
  match api d r with
  | .ok _ => some { type := d, rule := summaryOf r }
  | .error _ => none

/-- The `failed` entry a rule contributes when its revoke call raises. -/
def errItem (api : RevokeApi) (d : Direction) (r : Rule) : Option FailedItem :=
  match api d r with
  | .ok _ => none
  | .error e => some { type := d, rule := summaryOf r, error := e }

theorem revokeLoop_allDict (api : RevokeApi) (d : Direction) :
    ∀ l : List Rule, (∀ r ∈ l, r.allDict = true) →
    revokeLoop api d l =
      (.ok (l.filterMap (okItem api d), l.filterMap (errItem api d)),
       l.map (fun r => (d, r)))
  | [], _ => rfl
  | r :: rs, h => by
    have hr : format_rule_summary r = .ok (summarySpec r) :=
      format_rule_summary_allDict (h r (List.mem_cons_self r rs))
    have hsum : summaryOf r = summarySpec r := by unfold summaryOf; rw [hr]
    unfold revokeLoop
    rw [hr, revokeLoop_allDict api d rs (fun x hx => h x (List.mem_cons_of_mem r hx))]
    cases hapi : api d r with
    | ok u => simp [okItem, errItem, hapi, hsum]
    | error e => simp [okItem, errItem, hapi, hsum]

theorem revoke_unauthorized_rules_allDict (api : RevokeApi) (drift : DriftInfo)
    (hi : ∀ r ∈ drift.unauthorized.ingress, r.allDict = true)
    (he : ∀ r ∈ drift.unauthorized.egress, r.allDict = true) :
    revoke_unauthorized_rules api drift =
      (.ok { revoked :=
               drift.unauthorized.ingress.filterMap (okItem api .ingress) ++
                 drift.unauthorized.egress.filterMap (okItem api .egress)
             failed :=
               drift.unauthorized.ingress.filterMap (errItem api .ingress) ++
                 drift.unauthorized.egress.filterMap (errItem api .egress) },
       drift.unauthorized.ingress.map (fun r => (Direction.ingress, r)) ++
         drift.unauthorized.egress.map (fun r => (Direction.egress, r))) := by
  unfold revoke_unauthorized_rules
  rw [revokeLoop_allDict api .ingress _ hi, revokeLoop_allDict api .egress _ he]

/-! ### Characterizing the comparator -/

/-- The unauthorized rules one direction's comparison loop collects. -/
def unauthorizedDir (base l : List Rule) : List Rule :=
  l.filter fun r => !(base.any fun b => rules_match (normSpec r) (normSpec b))

theorem compare_rules_wf (baseline : BaselineRules) (current : CurrentRules)
    (hbi : ∀ b ∈ baseline.ingress.getD [], b.wf = true)
    (hbe : ∀ b ∈ baseline.egress.getD [], b.wf = true)
    (hci : ∀ r ∈ current.ingress, r.wf = true)
    (hce : ∀ r ∈ current.egress, r.wf = true) :
    compare_rules baseline current = .ok
      { has_drift :=
          !(unauthorizedDir (baseline.ingress.getD []) current.ingress).isEmpty ||
            !(unauthorizedDir (baseline.egress.getD []) current.egress).isEmpty
        unauthorized :=
          { ingress := unauthorizedDir (baseline.ingress.getD []) current.ingress
            egress := unauthorizedDir (baseline.egress.getD []) current.egress }
        total_unauthorized :=
          (unauthorizedDir (baseline.ingress.getD []) current.ingress).length +
            (unauthorizedDir (baseline.egress.getD []) current.egress).length } := by
  unfold compare_rules
  rw [compareDir_wf _ hbi _ hci, ok_bind, compareDir_wf _ hbe _ hce, ok_bind]
  rfl

theorem any_congr {α : Type} {p q : α → Bool} :
    ∀ {l : List α}, (∀ a ∈ l, p a = q a) → l.any p = l.any q
  | [], _ => rfl
  | a :: as, h => by
    rw [List.any_cons, List.any_cons, h a (List.mem_cons_self a as),
      any_congr (fun x hx => h x (List.mem_cons_of_mem a hx))]

theorem perm_all {α : Type} {p : α → Bool} {l1 l2 : List α} (h : l1.Perm l2) :
    l1.all p = l2.all p := by
  apply Bool.eq_iff_iff.mpr
  simp only [List.all_eq_true]
  exact ⟨fun ha a hm => ha a (h.mem_iff.mpr hm), fun ha a hm => ha a (h.mem_iff.mp hm)⟩

/-! ### Facts used by the idempotence and failure analyses -/

theorem keepStr_idem (x : Option String) : keepStr (keepStr x) = keepStr x := by
  cases x with
  | none => rfl
  | some s =>
    by_cases h : s = "" <;> simp [keepStr, h]

theorem keepInt_idem (x : Option Int) : keepInt (keepInt x) = keepInt x := by
  cases x with
  | none => rfl
  | some n =>
    by_cases h : n = 0 <;> simp [keepInt, h]

theorem keepList_eq_some {v l : List (Option String)} (h : keepList v = some l) :
    v = l ∧ v ≠ [] := by
  unfold keepList at h
  split at h
  · exact absurd h (by simp)
  · exact ⟨(Option.some.injEq _ _).mp h, by assumption⟩

theorem normalize_ok_fields {r : Rule} {n : NormalizedRule}
    (h : normalize_rule r = .ok n) :
    n.ipProtocol = keepStr r.ipProtocol ∧ n.fromPort = keepInt r.fromPort ∧
      n.toPort = keepInt r.toPort ∧
      (∃ v, n.ipRanges = keepList v) ∧ (∃ v, n.ipv6Ranges = keepList v) ∧
      (∃ v, n.prefixListIds = keepList v) ∧
      (∃ v, n.userIdGroupPairs = keepList v) := by
  unfold normalize_rule at h
  cases h1 : normSources r.ipRanges <;> rw [h1] at h <;> simp only [ok_bind, error_bind] at h
  · exact absurd h (by simp)
  cases h2 : normSources r.ipv6Ranges <;> rw [h2] at h <;> simp only [ok_bind, error_bind] at h
  · exact absurd h (by simp)
  cases h3 : normSources r.prefixListIds <;> rw [h3] at h <;> simp only [ok_bind, error_bind] at h
  · exact absurd h (by simp)
  cases h4 : normSources r.userIdGroupPairs <;> rw [h4] at h <;> simp only [ok_bind, error_bind] at h
  · exact absurd h (by simp)
  rw [pure_eq_ok, Except.ok.injEq] at h
  rw [← h]
  exact ⟨rfl, rfl, rfl, ⟨_, rfl⟩, ⟨_, rfl⟩, ⟨_, rfl⟩, ⟨_, rfl⟩⟩

theorem mapM_projEntry_err : ∀ {l : List Entry}, (∀ e ∈ l, e.isDict = false) →
    l ≠ [] → l.mapM projEntry = .error .attributeError
  | [], _, hne => absurd rfl hne
  | e :: es, h, _ => by
    have h1 : projEntry e = .error .attributeError := by
      have := h e (List.mem_cons_self e es)
      cases e <;> simp_all [projEntry, Entry.isDict]
    rw [List.mapM_cons, h1]
    rfl

theorem normSources_err {l : List Entry} (h : ∀ e ∈ l, e.isDict = false)
    (hne : l ≠ []) : normSources l = .error .attributeError := by
  unfold normSources
  rw [mapM_projEntry_err h hne]
  rfl

theorem two_le_length_of_mem_ne {α : Type} {a b : α} :
    ∀ {l : List α}, a ∈ l → b ∈ l → a ≠ b → 2 ≤ l.length
  | [], ha, _, _ => absurd ha (List.not_mem_nil a)
  | [x], ha, hb, hne => by
    rw [List.mem_singleton] at ha hb
    exact absurd (ha.trans hb.symm) hne
  | _ :: _ :: _, _, _, _ => by simp [Nat.succ_le_succ, Nat.le_add_left]

/-- A source collection holding both an entry that carries the identifying
key and an entry that lacks it. -/
@[reducible]
def Mixed (l : List Entry) : Prop :=
  (∃ e ∈ l, e.hasVal = true) ∧ (∃ e ∈ l, e.hasVal = false)

theorem normSources_allDict_cases {l : List Entry} (h : l.all Entry.isDict = true) :
    normSources l = .ok (sortedVals l) ∨ normSources l = .error .typeError := by
  unfold normSources
  rw [mapM_projEntry_ok h, ok_bind]
  unfold pySorted sortedVals
  by_cases hc : 2 ≤ (l.map Entry.val).length ∧ none ∈ l.map Entry.val
  · right; rw [if_pos hc]
  · left; rw [if_neg hc]

theorem normSources_mixed {l : List Entry} (hd : l.all Entry.isDict = true)
    (hm : Mixed l) : normSources l = .error .typeError := by
  unfold normSources
  rw [mapM_projEntry_ok hd, ok_bind]
  unfold pySorted
  rcases hm with ⟨⟨e1, he1, hv1⟩, ⟨e2, he2, hv2⟩⟩
  have hne : e1 ≠ e2 := fun hh => by rw [hh, hv2] at hv1; exact absurd hv1 (by simp)
  have hnone : (none : Option String) ∈ l.map Entry.val := by
    refine List.mem_map.mpr ⟨e2, he2, ?_⟩
    cases e2 <;> simp_all [Entry.hasVal, Entry.val]
    cases ‹Option String› <;> simp_all [Entry.val, Entry.hasVal]
  have hlen : 2 ≤ (l.map Entry.val).length := by
    rw [List.length_map]
    exact two_le_length_of_mem_ne he1 he2 hne
  rw [if_pos ⟨hlen, hnone⟩]

theorem normalize_rule_mixed {r : Rule} (hd : r.allDict = true)
    (hmix : Mixed r.ipRanges ∨ Mixed r.ipv6Ranges ∨ Mixed r.prefixListIds ∨
      Mixed r.userIdGroupPairs) :
    normalize_rule r = .error .typeError := by
  unfold Rule.allDict at hd
  simp only [Bool.and_eq_true] at hd
  obtain ⟨⟨⟨d1, d2⟩, d3⟩, d4⟩ := hd
  unfold normalize_rule
  rcases hmix with hm | hm | hm | hm
  · rw [normSources_mixed d1 hm]; rfl
  · rcases normSources_allDict_cases d1 with h1 | h1
    · rw [h1, ok_bind, normSources_mixed d2 hm]; rfl
    · rw [h1]; rfl
  · rcases normSources_allDict_cases d1 with h1 | h1
    · rw [h1, ok_bind]
      rcases normSources_allDict_cases d2 with h2 | h2
      · rw [h2, ok_bind, normSources_mixed d3 hm]; rfl
      · rw [h2]; rfl
    · rw [h1]; rfl
  · rcases normSources_allDict_cases d1 with h1 | h1
    · rw [h1, ok_bind]
      rcases normSources_allDict_cases d2 with h2 | h2
      · rw [h2, ok_bind]
        rcases normSources_allDict_cases d3 with h3 | h3
        · rw [h3, ok_bind, normSources_mixed d4 hm]; rfl
        · rw [h3]; rfl
      · rw [h2]; rfl
    · rw [h1]; rfl

/-! ### Feeding a normalized dict back into `normalize_rule` -/

/-- The Python value a normalized source list holds at each position: the
plain string itself, or `None` for a projected missing key. -/
def toEntry : Option String → Entry
  | some s => .str s
  | none => .pyNone

/-- A normalized dict, reinterpreted as the rule-shaped argument it is when
passed back to `normalize_rule`: absent keys read as absent fields and
collection elements are the plain strings (or `None`) the dict holds. -/
def toRuleShape (n : NormalizedRule) : Rule :=
  { ipProtocol := n.ipProtocol
    fromPort := n.fromPort
    toPort := n.toPort
    ipRanges := (n.ipRanges.getD []).map toEntry
    ipv6Ranges := (n.ipv6Ranges.getD []).map toEntry
    prefixListIds := (n.prefixListIds.getD []).map toEntry
    userIdGroupPairs := (n.userIdGroupPairs.getD []).map toEntry
    extra := [] }

theorem toEntry_not_dict (v : Option String) : (toEntry v).isDict = false := by
  cases v <;> rfl

theorem normSources_map_toEntry {l : List (Option String)} (hne : l ≠ []) :
    normSources (l.map toEntry) = .error .attributeError := by
  refine normSources_err ?_ ?_
  · intro e he
    rcases List.mem_map.mp he with ⟨v, _, rfl⟩
    exact toEntry_not_dict v
  · intro hh
    exact hne (List.map_eq_nil_iff.mp hh)

theorem renormalize_degenerate {r : Rule} {n : NormalizedRule}
    (h : normalize_rule r = .ok n) (h1 : n.ipRanges = none)
    (h2 : n.ipv6Ranges = none) (h3 : n.prefixListIds = none)
    (h4 : n.userIdGroupPairs = none) :
    normalize_rule (toRuleShape n) = .ok n := by
  obtain ⟨hp, hf, ht, _, _, _, _⟩ := normalize_ok_fields h
  have hpa : keepStr n.ipProtocol = n.ipProtocol := by rw [hp, keepStr_idem]
  have hfa : keepInt n.fromPort = n.fromPort := by rw [hf, keepInt_idem]
  have hta : keepInt n.toPort = n.toPort := by rw [ht, keepInt_idem]
  unfold normalize_rule toRuleShape
  rw [h1, h2, h3, h4]
  simp only [Option.getD_none, List.map_nil]
  have hnil : normSources [] = .ok [] := rfl
  rw [hnil, ok_bind, ok_bind, ok_bind, ok_bind, pure_eq_ok, Except.ok.injEq]
  cases n with
  | mk a b c d e f g =>
    simp only at hpa hfa hta h1 h2 h3 h4
    rw [h1, h2, h3, h4]
    simp [hpa, hfa, hta, keepList]

theorem renormalize_with_sources {r : Rule} {n : NormalizedRule}
    (h : normalize_rule r = .ok n)
    (hs : n.ipRanges ≠ none ∨ n.ipv6Ranges ≠ none ∨ n.prefixListIds ≠ none ∨
      n.userIdGroupPairs ≠ none) :
    normalize_rule (toRuleShape n) = .error .attributeError := by
  obtain ⟨_, _, _, ⟨v1, hv1⟩, ⟨v2, hv2⟩, ⟨v3, hv3⟩, ⟨v4, hv4⟩⟩ :=
    normalize_ok_fields h
  have key : ∀ (x : Option (List (Option String))) (v : List (Option String)),
      x = keepList v → x ≠ none → ∃ l, x = some l ∧ l ≠ [] := by
    intro x v hx hne
    cases hxx : x with
    | none => exact absurd hxx hne
    | some l =>
      rcases keepList_eq_some (v := v) (l := l) (by rw [← hx, hxx]) with ⟨hvl, hvne⟩
      exact ⟨l, rfl, by rw [← hvl]; exact hvne⟩
  have hnil : normSources (([] : List (Option String)).map toEntry) = .ok [] := rfl
  unfold normalize_rule toRuleShape
  cases hx1 : n.ipRanges with
  | some l1 =>
    rcases key _ _ hv1 (by rw [hx1]; simp) with ⟨l1', he, hne⟩
    rw [hx1] at he
    rw [← (Option.some.injEq _ _).mp he] at hne
    rw [show (some l1).getD [] = l1 from rfl, normSources_map_toEntry hne]
    rfl
  | none =>
    rw [show (none : Option (List (Option String))).getD [] = [] from rfl, hnil, ok_bind]
    cases hx2 : n.ipv6Ranges with
    | some l2 =>
      rcases key _ _ hv2 (by rw [hx2]; simp) with ⟨l2', he, hne⟩
      rw [hx2] at he
      rw [← (Option.some.injEq _ _).mp he] at hne
      rw [show (some l2).getD [] = l2 from rfl, normSources_map_toEntry hne]
      rfl
    | none =>
      rw [show (none : Option (List (Option String))).getD [] = [] from rfl, hnil, ok_bind]
      cases hx3 : n.prefixListIds with
      | some l3 =>
        rcases key _ _ hv3 (by rw [hx3]; simp) with ⟨l3', he, hne⟩
        rw [hx3] at he
        rw [← (Option.some.injEq _ _).mp he] at hne
        rw [show (some l3).getD [] = l3 from rfl, normSources_map_toEntry hne]
        rfl
      | none =>
        rw [show (none : Option (List (Option String))).getD [] = [] from rfl, hnil, ok_bind]
        cases hx4 : n.userIdGroupPairs with
        | some l4 =>
          rcases key _ _ hv4 (by rw [hx4]; simp) with ⟨l4', he, hne⟩
          rw [hx4] at he
          rw [← (Option.some.injEq _ _).mp he] at hne
          rw [show (some l4).getD [] = l4 from rfl, normSources_map_toEntry hne]
          rfl
        | none =>
          rcases hs with hh | hh | hh | hh
          · exact absurd hx1 hh
          · exact absurd hx2 hh
          · exact absurd hx3 hh
          · exact absurd hx4 hh

/-! ### Sample rules used by the witnesses -/

/-- Sample baseline rule: SSH from the corporate range. -/
def ruleSSH : Rule :=
  { ipProtocol := some "tcp", fromPort := some 22, toPort := some 22,
    ipRanges := [.dict (some "10.0.0.0/8") []], ipv6Ranges := [],
    prefixListIds := [], userIdGroupPairs := [], extra := [] }

/-- The same SSH rule as the live API reports it, carrying non-semantic
metadata that normalization must ignore. -/
def ruleSSHLive : Rule :=
  { ipProtocol := some "tcp", fromPort := some 22, toPort := some 22,
    ipRanges := [.dict (some "10.0.0.0/8") [("Description", "corp")]],
    ipv6Ranges := [], prefixListIds := [], userIdGroupPairs := [],
    extra := [("SecurityGroupRuleId", "sgr-0abc")] }

/-- An attacker-added world-open rule, absent from the baseline. -/
def ruleOpen : Rule :=
  { ipProtocol := some "tcp", fromPort := some 22, toPort := some 22,
    ipRanges := [.dict (some "0.0.0.0/0") []], ipv6Ranges := [],
    prefixListIds := [], userIdGroupPairs := [], extra := [] }

/-- A rule with two CIDR sources (used to exercise order independence). -/
def ruleTwoCidr : Rule :=
  { ipProtocol := some "tcp", fromPort := some 80, toPort := some 80,
    ipRanges := [.dict (some "10.0.0.0/8") [], .dict (some "172.16.0.0/12") []],
    ipv6Ranges := [], prefixListIds := [], userIdGroupPairs := [], extra := [] }

/-- A rule whose `IpRanges` holds one entry carrying `CidrIp` and one entry
lacking it. -/
def ruleMixed : Rule :=
  { ipProtocol := some "tcp", fromPort := some 22, toPort := some 22,
    ipRanges := [.dict (some "10.0.0.0/8") [], .dict none [("Description", "x")]],
    ipv6Ranges := [], prefixListIds := [], userIdGroupPairs := [], extra := [] }

/-! ### The claims -/

/-- The claim's comparison key: a live rule is unauthorized exactly when its
normalized form deep-equals no normalized baseline rule. -/
def noBaselineMatch (base : List Rule) (r : Rule) : Bool :=
  !(base.any fun b => decide (normalize_rule r = normalize_rule b))

theorem noBaselineMatch_eq {base : List Rule} {r : Rule} (hr : r.wf = true)
    (hb : ∀ b ∈ base, b.wf = true) :
    noBaselineMatch base r =
      !(base.any fun b => rules_match (normSpec r) (normSpec b)) := by
  unfold noBaselineMatch
  congr 1
  apply any_congr
  intro b hbm
  rw [normalize_rule_wf hr, normalize_rule_wf (hb b hbm)]
  show decide (Except.ok (normSpec r) = Except.ok (normSpec b)) =
    rules_match (normSpec r) (normSpec b)
  unfold rules_match
  rw [show (normSpec r == normSpec b) = decide (normSpec r = normSpec b) from rfl]
  exact decide_eq_decide.mpr (by rw [Except.ok.injEq])

/-- C1. For every baseline rule list and live rule list of well-formed rules
(per direction), `compare_rules` succeeds and returns exactly the live rules
whose normalized form deep-equals no normalized baseline rule: each
unauthorized list is literally `List.filter` of the live list, so reported
rules keep their original non-normalized form and their order of appearance,
a live rule equivalent to some baseline rule is never reported, and a
baseline rule absent from the live list is never reported; `has_drift` is
true iff the unauthorized ingress or egress list is non-empty. -/
theorem compare_rules_sound (baseline : BaselineRules) (current : CurrentRules)
    (hbi : ∀ b ∈ baseline.ingress.getD [], b.wf = true)
    (hbe : ∀ b ∈ baseline.egress.getD [], b.wf = true)
    (hci : ∀ r ∈ current.ingress, r.wf = true)
    (hce : ∀ r ∈ current.egress, r.wf = true) :
    ∃ d, compare_rules baseline current = .ok d ∧
      d.unauthorized.ingress =
        current.ingress.filter (noBaselineMatch (baseline.ingress.getD [])) ∧
      d.unauthorized.egress =
        current.egress.filter (noBaselineMatch (baseline.egress.getD [])) ∧
      (d.has_drift = true ↔
        (d.unauthorized.ingress ≠ [] ∨ d.unauthorized.egress ≠ [])) ∧
      d.total_unauthorized =
        d.unauthorized.ingress.length + d.unauthorized.egress.length := by
  refine ⟨_, compare_rules_wf baseline current hbi hbe hci hce, ?_, ?_, ?_, rfl⟩
  · exact (List.filter_congr fun r hr => noBaselineMatch_eq (hci r hr) hbi).symm
  · exact (List.filter_congr fun r hr => noBaselineMatch_eq (hce r hr) hbe).symm
  · show (!(unauthorizedDir (baseline.ingress.getD []) current.ingress).isEmpty ||
        !(unauthorizedDir (baseline.egress.getD []) current.egress).isEmpty) = true ↔
      (unauthorizedDir (baseline.ingress.getD []) current.ingress ≠ [] ∨
        unauthorizedDir (baseline.egress.getD []) current.egress ≠ [])
    cases unauthorizedDir (baseline.ingress.getD []) current.ingress <;>
      cases unauthorizedDir (baseline.egress.getD []) current.egress <;> simp

/-- Witness for C1 at a concrete baseline and live set: the live SSH rule
(with metadata) matches the baseline, the world-open rule does not. -/
theorem compare_rules_sound_witness :
    ∃ d, compare_rules { ingress := some [ruleSSH], egress := some [] }
        { ingress := [ruleSSHLive, ruleOpen], egress := [] } = .ok d ∧
      d.unauthorized.ingress =
        [ruleSSHLive, ruleOpen].filter (noBaselineMatch [ruleSSH]) ∧
      d.unauthorized.egress = [].filter (noBaselineMatch []) ∧
      (d.has_drift = true ↔
        (d.unauthorized.ingress ≠ [] ∨ d.unauthorized.egress ≠ [])) ∧
      d.total_unauthorized =
        d.unauthorized.ingress.length + d.unauthorized.egress.length :=
  compare_rules_sound { ingress := some [ruleSSH], egress := some [] }
    { ingress := [ruleSSHLive, ruleOpen], egress := [] }
    (by decide) (by decide) (by decide) (by decide)

/-- C2. For every drift report over all-dict rules and every revoke-API
behaviour, remediation attempts each unauthorized rule exactly once — the
call trace is exactly the ingress rules in order followed by the egress rules
in order — and each outcome is recorded independently: a failing rule lands
in `failed` with its direction and error message while all later rules are
still attempted, so no single failure aborts the batch. -/
theorem revoke_attempts_each_rule_once (api : RevokeApi) (drift : DriftInfo)
    (hi : ∀ r ∈ drift.unauthorized.ingress, r.allDict = true)
    (he : ∀ r ∈ drift.unauthorized.egress, r.allDict = true) :
    revoke_unauthorized_rules api drift =
      (.ok { revoked :=
               drift.unauthorized.ingress.filterMap (okItem api .ingress) ++
                 drift.unauthorized.egress.filterMap (okItem api .egress)
             failed :=
               drift.unauthorized.ingress.filterMap (errItem api .ingress) ++
                 drift.unauthorized.egress.filterMap (errItem api .egress) },
       drift.unauthorized.ingress.map (fun r => (Direction.ingress, r)) ++
         drift.unauthorized.egress.map (fun r => (Direction.egress, r))) :=
  revoke_unauthorized_rules_allDict api drift hi he

/-- Witness for C2: two unauthorized ingress rules and one egress rule; the
API rejects the first ingress rule, the others succeed; all three are
attempted, ingress first, and the failure is recorded with its message. -/
theorem revoke_attempts_each_rule_once_witness :
    revoke_unauthorized_rules
        (fun _ r => if r = ruleOpen then .error "UnauthorizedOperation" else .ok ())
        { has_drift := true
          unauthorized := { ingress := [ruleOpen, ruleSSH], egress := [ruleTwoCidr] }
          total_unauthorized := 3 } =
      (.ok { revoked := [ruleOpen, ruleSSH].filterMap
                (okItem (fun _ r => if r = ruleOpen then .error "UnauthorizedOperation" else .ok ()) .ingress) ++
              [ruleTwoCidr].filterMap
                (okItem (fun _ r => if r = ruleOpen then .error "UnauthorizedOperation" else .ok ()) .egress)
             failed := [ruleOpen, ruleSSH].filterMap
                (errItem (fun _ r => if r = ruleOpen then .error "UnauthorizedOperation" else .ok ()) .ingress) ++
              [ruleTwoCidr].filterMap
                (errItem (fun _ r => if r = ruleOpen then .error "UnauthorizedOperation" else .ok ()) .egress) },
       [ruleOpen, ruleSSH].map (fun r => (Direction.ingress, r)) ++
         [ruleTwoCidr].map (fun r => (Direction.egress, r))) :=
  revoke_attempts_each_rule_once
    (fun _ r => if r = ruleOpen then .error "UnauthorizedOperation" else .ok ())
    { has_drift := true
      unauthorized := { ingress := [ruleOpen, ruleSSH], egress := [ruleTwoCidr] }
      total_unauthorized := 3 }
    (by decide) (by decide)

/-- C3 counterexample. On the rule `{IpProtocol: "tcp", FromPort: 0,
ToPort: 0, IpRanges: [{CidrIp: ""}]}` the code does not extract the ports
verbatim — `0` is falsy, so `FromPort`/`ToPort` are dropped from the
normalized dict — and does not discard the empty-string CIDR: `IpRanges` is
retained as `[""]` instead of being omitted as the claim requires. -/
theorem normalize_rule_c3_cex :
    normalize_rule
        ⟨some "tcp", some 0, some 0, [.dict (some "") []], [], [], [], []⟩ =
      .ok ⟨some "tcp", none, none, some [some ""], none, none, none⟩ ∧
    (none : Option Int) ≠ some 0 ∧
    (some [some ""] : Option (List (Option String))) ≠ none := by
  exact ⟨by decide, by decide, by decide⟩

/-- C3 (amended). For every well-formed rule, normalization extracts
protocol, fromPort and toPort but retains each only when truthy (non-empty
protocol; present, non-zero ports); each source-type collection is projected
to its identifying field, sorted lexicographically ascending with empty
strings retained rather than discarded, and included iff the collection is
non-empty; a rule with zero sources of every type normalizes to a record
holding at most protocol/ports, so two such degenerate rules compare equal
exactly when their kept scalars agree. -/
theorem normalize_rule_amended :
    (∀ r : Rule, r.wf = true → normalize_rule r = .ok (normSpec r)) ∧
    (∀ r : Rule, r.wf = true → r.ipRanges = [] → r.ipv6Ranges = [] →
      r.prefixListIds = [] → r.userIdGroupPairs = [] →
      normalize_rule r = .ok ⟨keepStr r.ipProtocol, keepInt r.fromPort,
        keepInt r.toPort, none, none, none, none⟩) := by
  refine ⟨fun r h => normalize_rule_wf h, fun r h h1 h2 h3 h4 => ?_⟩
  rw [normalize_rule_wf h]
  unfold normSpec sortedVals
  rw [h1, h2, h3, h4]
  rfl

/-- Witness for C3 (amended) on the concrete SSH rule. -/
theorem normalize_rule_amended_witness :
    Rule.wf ruleSSH = true ∧ normalize_rule ruleSSH = .ok (normSpec ruleSSH) :=
  ⟨by decide, normalize_rule_amended.1 ruleSSH (by decide)⟩

/-- C4 counterexample. Normalizing a concrete SSH rule yields a normalized
dict with one CIDR string; feeding that normalize-shaped value back into
`normalize_rule` raises `AttributeError` (the projection calls `.get` on a
plain string) instead of reproducing the same structure, so normalization is
not idempotent. -/
theorem normalize_rule_c4_cex :
    normalize_rule
        ⟨some "tcp", some 22, some 22, [.dict (some "10.0.0.0/8") []], [], [], [], []⟩ =
      .ok ⟨some "tcp", some 22, some 22, some [some "10.0.0.0/8"], none, none, none⟩ ∧
    normalize_rule (toRuleShape
        ⟨some "tcp", some 22, some 22, some [some "10.0.0.0/8"], none, none, none⟩) =
      .error .attributeError := by
  exact ⟨by decide, by decide⟩

/-- C4 (amended). The relation `normalize_rule r1 = normalize_rule r2` is an
equivalence (reflexive, symmetric, transitive); permuting the entries of any
source-type collection of a well-formed rule before normalization does not
change the normalized result; but normalization is not idempotent in
general: re-applying `normalize_rule` to a normalize-shaped value reproduces
it only in the degenerate case where no source collection survived, and
raises `AttributeError` whenever some source collection is present. -/
theorem normalize_rule_equiv_perm_idem :
    Equivalence (fun r1 r2 : Rule => normalize_rule r1 = normalize_rule r2) ∧
    (∀ (r : Rule) (l1 l2 l3 l4 : List Entry), r.wf = true →
      l1.Perm r.ipRanges → l2.Perm r.ipv6Ranges → l3.Perm r.prefixListIds →
      l4.Perm r.userIdGroupPairs →
      normalize_rule { r with ipRanges := l1, ipv6Ranges := l2, prefixListIds := l3, userIdGroupPairs := l4 } = normalize_rule r) ∧
    (∀ (r : Rule) (n : NormalizedRule), normalize_rule r = .ok n →
      n.ipRanges = none → n.ipv6Ranges = none → n.prefixListIds = none →
      n.userIdGroupPairs = none → normalize_rule (toRuleShape n) = .ok n) ∧
    (∀ (r : Rule) (n : NormalizedRule), normalize_rule r = .ok n →
      (n.ipRanges ≠ none ∨ n.ipv6Ranges ≠ none ∨ n.prefixListIds ≠ none ∨
        n.userIdGroupPairs ≠ none) →
      normalize_rule (toRuleShape n) = .error .attributeError) := by
  refine ⟨⟨fun _ => rfl, Eq.symm, Eq.trans⟩, ?_,
    fun _ n h h1 h2 h3 h4 => renormalize_degenerate h h1 h2 h3 h4,
    fun _ n h hs => renormalize_with_sources h hs⟩
  intro r l1 l2 l3 l4 hwf p1 p2 p3 p4
  have hwf' : Rule.wf { r with ipRanges := l1, ipv6Ranges := l2, prefixListIds := l3, userIdGroupPairs := l4 } = true := by
    unfold Rule.wf at hwf ⊢
    show (l1.all Entry.hasVal && l2.all Entry.hasVal && l3.all Entry.hasVal &&
      l4.all Entry.hasVal) = true
    rw [perm_all p1, perm_all p2, perm_all p3, perm_all p4]
    exact hwf
  rw [normalize_rule_wf hwf', normalize_rule_wf hwf]
  unfold normSpec sortedVals
  show Except.ok (NormalizedRule.mk (keepStr r.ipProtocol) (keepInt r.fromPort)
    (keepInt r.toPort) (keepList (pySort (l1.map Entry.val)))
    (keepList (pySort (l2.map Entry.val))) (keepList (pySort (l3.map Entry.val)))
    (keepList (pySort (l4.map Entry.val)))) = _
  rw [pySort_canon (p1.map Entry.val), pySort_canon (p2.map Entry.val),
    pySort_canon (p3.map Entry.val), pySort_canon (p4.map Entry.val)]

/-- Witness for C4 (amended): swapping the two CIDR entries of a concrete
rule leaves the normalized result unchanged. -/
theorem normalize_rule_equiv_perm_idem_witness :
    Rule.wf ruleTwoCidr = true ∧
    normalize_rule { ruleTwoCidr with ipRanges := [.dict (some "172.16.0.0/12") [], .dict (some "10.0.0.0/8") []], ipv6Ranges := [], prefixListIds := [], userIdGroupPairs := [] } =
      normalize_rule ruleTwoCidr :=
  ⟨by decide, normalize_rule_equiv_perm_idem.2.1 ruleTwoCidr _ _ _ _ (by decide)
    (List.Perm.swap (Entry.dict (some "10.0.0.0/8") []) (Entry.dict (some "172.16.0.0/12") []) [])
    List.Perm.nil List.Perm.nil List.Perm.nil⟩

/-- C5. The summary formatter is total on all-dict rules and follows the
spec's branch structure — `"All traffic from {sources}"` when the protocol is
`"-1"`, `"Protocol p, Port f from {sources}"` when the ports coincide, and
`"Protocol p, Ports f-t from {sources}"` otherwise, where `{sources}` joins
the CIDR, IPv6-CIDR and peer-group identifiers in that fixed order, filters
falsy values and falls back to `"unknown"` — and it produces exactly the
three strings the spec quotes on the spec's three example inputs. -/
theorem format_rule_summary_spec :
    (∀ r : Rule, r.allDict = true → format_rule_summary r = .ok (summarySpec r)) ∧
    format_rule_summary
        ⟨some "-1", none, none, [.dict (some "0.0.0.0/0") []], [], [], [], []⟩ =
      .ok "All traffic from 0.0.0.0/0" ∧
    format_rule_summary
        ⟨some "tcp", some 22, some 22, [.dict (some "10.0.0.0/8") []], [], [], [], []⟩ =
      .ok "Protocol tcp, Port 22 from 10.0.0.0/8" ∧
    format_rule_summary
        ⟨some "tcp", some 8000, some 8080, [], [], [], [], []⟩ =
      .ok "Protocol tcp, Ports 8000-8080 from unknown" :=
  ⟨fun _ h => format_rule_summary_allDict h, by decide, by decide, by decide⟩

/-- Witness for C5's universally quantified part, on a rule whose `IpRanges`
holds a CIDR entry and an entry lacking its key (read as the empty string and
filtered out of the summary). -/
theorem format_rule_summary_spec_witness :
    Rule.allDict ruleMixed = true ∧
    format_rule_summary ruleMixed = .ok (summarySpec ruleMixed) :=
  ⟨by decide, format_rule_summary_spec.1 ruleMixed (by decide)⟩

/-- C6. For every run whose baseline load and live fetch succeed over
well-formed rules, the handler's result is the 200 no-drift body — with no
revoke call and no notification — exactly when the comparator finds nothing;
otherwise remediation runs and the handler returns 200 with
`unauthorized_rules_removed` equal to the number of successfully revoked
rules and the full remediation detail nested in the body, regardless of how
many individual revocations failed (partial remediation is still run-level
success). -/
theorem lambda_handler_run_result (env : Env) (b : BaselineRules)
    (c : CurrentRules) (hb : env.baseline = .ok b) (hc : env.current = .ok c)
    (hbi : ∀ x ∈ b.ingress.getD [], x.wf = true)
    (hbe : ∀ x ∈ b.egress.getD [], x.wf = true)
    (hci : ∀ x ∈ c.ingress, x.wf = true)
    (hce : ∀ x ∈ c.egress, x.wf = true) :
    ∃ d, compare_rules b c = .ok d ∧
      (d.has_drift = false →
        lambda_handler env = (.ok { statusCode := 200, body := .noDrift }, [])) ∧
      (d.has_drift = true →
        ∃ res tr, revoke_unauthorized_rules env.api d = (.ok res, tr) ∧
          res.revoked =
            d.unauthorized.ingress.filterMap (okItem env.api .ingress) ++
              d.unauthorized.egress.filterMap (okItem env.api .egress) ∧
          lambda_handler env =
            (.ok { statusCode := 200
                   body := .remediated res.revoked.length res },
             tr.map (fun p => Call.revoke p.1 p.2) ++ send_notifications env)) := by
  obtain ⟨d, hcomp, hAi, hAe⟩ :
      ∃ d, compare_rules b c = .ok d ∧
        (∀ r ∈ d.unauthorized.ingress, r.allDict = true) ∧
        (∀ r ∈ d.unauthorized.egress, r.allDict = true) := by
    refine ⟨_, compare_rules_wf b c hbi hbe hci hce, ?_, ?_⟩
    · intro r hr
      exact Rule.allDict_of_wf (hci r (List.mem_filter.mp hr).1)
    · intro r hr
      exact Rule.allDict_of_wf (hce r (List.mem_filter.mp hr).1)
  refine ⟨d, hcomp, ?_, ?_⟩
  · intro hnd
    unfold lambda_handler
    rw [hb, hc]
    simp [hcomp, hnd]
  · intro hdr
    have hrev := revoke_unauthorized_rules_allDict env.api d hAi hAe
    refine ⟨_, _, hrev, rfl, ?_⟩
    unfold lambda_handler
    rw [hb, hc]
    simp [hcomp, hdr, hrev]

/-- Witness for C6: a run with one matching live rule, one world-open rule
and an API that accepts every revoke. -/
theorem lambda_handler_run_result_witness :
    ∃ d, compare_rules { ingress := some [ruleSSH], egress := some [] }
        { ingress := [ruleSSHLive, ruleOpen], egress := [] } = .ok d ∧
      (d.has_drift = false →
        lambda_handler
            { baseline := .ok { ingress := some [ruleSSH], egress := some [] }
              current := .ok { ingress := [ruleSSHLive, ruleOpen], egress := [] }
              api := fun _ _ => .ok (), snsOk := true
              ssm := .ok placeholderMarker, webhook := .ok 200 } =
          (.ok { statusCode := 200, body := .noDrift }, [])) ∧
      (d.has_drift = true →
        ∃ res tr, revoke_unauthorized_rules (fun _ _ => .ok ()) d = (.ok res, tr) ∧
          res.revoked =
            d.unauthorized.ingress.filterMap (okItem (fun _ _ => .ok ()) .ingress) ++
              d.unauthorized.egress.filterMap (okItem (fun _ _ => .ok ()) .egress) ∧
          lambda_handler
              { baseline := .ok { ingress := some [ruleSSH], egress := some [] }
                current := .ok { ingress := [ruleSSHLive, ruleOpen], egress := [] }
                api := fun _ _ => .ok (), snsOk := true
                ssm := .ok placeholderMarker, webhook := .ok 200 } =
            (.ok { statusCode := 200
                   body := .remediated res.revoked.length res },
             tr.map (fun p => Call.revoke p.1 p.2) ++ send_notifications
               { baseline := .ok { ingress := some [ruleSSH], egress := some [] }
                 current := .ok { ingress := [ruleSSHLive, ruleOpen], egress := [] }
                 api := fun _ _ => .ok (), snsOk := true
                 ssm := .ok placeholderMarker, webhook := .ok 200 })) :=
  lambda_handler_run_result
    { baseline := .ok { ingress := some [ruleSSH], egress := some [] }
      current := .ok { ingress := [ruleSSHLive, ruleOpen], egress := [] }
      api := fun _ _ => .ok (), snsOk := true
      ssm := .ok placeholderMarker, webhook := .ok 200 }
    _ _ rfl rfl (by decide) (by decide) (by decide) (by decide)

/-- C7. The run's reported outcome (the handler's status/body, or the
re-raised error) is a function of the baseline load, the live fetch and the
revoke API alone: however the SNS publish, the SSM webhook lookup or the
webhook POST behave, the first component of `lambda_handler` is unchanged —
notification failures are swallowed and never affect the reported status. -/
theorem run_result_ignores_notification_failures
    (b : Except String BaselineRules) (c : Except String CurrentRules)
    (api : RevokeApi) (s1 s2 : Bool) (m1 m2 : Except String String)
    (w1 w2 : Except String Nat) :
    (lambda_handler { baseline := b, current := c, api := api, snsOk := s1
                      ssm := m1, webhook := w1 }).1 =
    (lambda_handler { baseline := b, current := c, api := api, snsOk := s2
                      ssm := m2, webhook := w2 }).1 := by
  unfold lambda_handler
  cases b with
  | error e => rfl
  | ok bb =>
    cases c with
    | error e => rfl
    | ok cc =>
      rcases hcomp : compare_rules bb cc with e | d
      · simp [hcomp]
      · by_cases hd : d.has_drift = true
        · rcases hrv : revoke_unauthorized_rules api d with ⟨fst, snd⟩
          cases fst with
          | error e => simp [hcomp, hd, hrv]
          | ok results => simp [hcomp, hd, hrv]
        · simp [hcomp, hd]

/-- C8. When the secret store returns a webhook URL containing the literal
placeholder marker, the chat notification is silently skipped: the only
external call is the SSM read, no webhook POST is issued, and no error is
raised or propagated. -/
theorem placeholder_url_skips_webhook (env : Env) (url : String)
    (h1 : env.ssm = .ok url) (h2 : containsMarker url = true) :
    send_slack_notification env = (.ok (), [.ssmGet]) := by
  unfold send_slack_notification
  rw [h1]
  simp [h2]

/-- Witness for C8 with the literal placeholder value. -/
theorem placeholder_url_skips_webhook_witness :
    containsMarker placeholderMarker = true ∧
    send_slack_notification
        { baseline := .error "na", current := .error "na"
          api := fun _ _ => .ok (), snsOk := true
          ssm := .ok placeholderMarker, webhook := .error "unreachable" } =
      (.ok (), [.ssmGet]) :=
  ⟨by decide, placeholder_url_skips_webhook _ placeholderMarker rfl (by decide)⟩

/-- C9. Normalization is partial: on any all-dict rule in which some source
collection holds both an entry carrying its identifying field and an entry
lacking it, the `sorted` call compares `None` against a string and raises an
uncaught `TypeError`, and `is_rule_in_baseline` — hence the comparator — fails
the same way on such a live rule whatever the baseline is. -/
theorem mixed_sources_normalize_raises (r : Rule) (hd : r.allDict = true)
    (hmix : Mixed r.ipRanges ∨ Mixed r.ipv6Ranges ∨ Mixed r.prefixListIds ∨
      Mixed r.userIdGroupPairs) :
    normalize_rule r = .error .typeError ∧
    (∀ bs : List Rule, is_rule_in_baseline r bs = .error .typeError) ∧
    (∀ (baseline : BaselineRules) (egressRules : List Rule),
      compare_rules baseline { ingress := [r], egress := egressRules } =
        .error .typeError) := by
  have h1 : normalize_rule r = .error .typeError := normalize_rule_mixed hd hmix
  have h2 : ∀ bs : List Rule, is_rule_in_baseline r bs = .error .typeError := by
    intro bs
    unfold is_rule_in_baseline
    rw [h1]
    rfl
  refine ⟨h1, h2, ?_⟩
  intro baseline eg
  unfold compare_rules
  have h3 : compareDir (baseline.ingress.getD []) [r] = .error .typeError := by
    simp only [compareDir]
    rw [h2]
    rfl
  rw [h3]
  rfl

/-- Witness for C9: a rule whose `IpRanges` holds one entry with `CidrIp`
and one entry without it. -/
theorem mixed_sources_normalize_raises_witness :
    Rule.allDict ruleMixed = true ∧ Mixed ruleMixed.ipRanges ∧
    normalize_rule ruleMixed = .error .typeError :=
  ⟨by decide, by decide,
    (mixed_sources_normalize_raises ruleMixed (by decide) (Or.inl (by decide))).1⟩

/-- C10. A baseline document lacking the ingress (respectively egress) key
is not an error: that direction's baseline reads as the empty list, every
live rule of the direction is reported unauthorized, and each of them is
subsequently submitted for revocation (it appears in the revoke-call trace). -/
theorem missing_baseline_key_reports_all :
    (∀ (eg : Option (List Rule)) (c : CurrentRules) (api : RevokeApi),
      (∀ x ∈ c.ingress, x.wf = true) → (∀ x ∈ c.egress, x.wf = true) →
      (∀ x ∈ eg.getD [], x.wf = true) →
      ∃ d, compare_rules { ingress := none, egress := eg } c = .ok d ∧
        d.unauthorized.ingress = c.ingress ∧
        (revoke_unauthorized_rules api d).2 =
          c.ingress.map (fun r => (Direction.ingress, r)) ++
            d.unauthorized.egress.map (fun r => (Direction.egress, r))) ∧
    (∀ (ing : Option (List Rule)) (c : CurrentRules) (api : RevokeApi),
      (∀ x ∈ c.ingress, x.wf = true) → (∀ x ∈ c.egress, x.wf = true) →
      (∀ x ∈ ing.getD [], x.wf = true) →
      ∃ d, compare_rules { ingress := ing, egress := none } c = .ok d ∧
        d.unauthorized.egress = c.egress ∧
        (revoke_unauthorized_rules api d).2 =
          d.unauthorized.ingress.map (fun r => (Direction.ingress, r)) ++
            c.egress.map (fun r => (Direction.egress, r))) := by
  constructor
  · intro eg c api hci hce hbe
    obtain ⟨d, hcomp, hdi, hAi, hAe⟩ :
        ∃ d, compare_rules { ingress := none, egress := eg } c = .ok d ∧
          d.unauthorized.ingress = c.ingress ∧
          (∀ r ∈ d.unauthorized.ingress, r.allDict = true) ∧
          (∀ r ∈ d.unauthorized.egress, r.allDict = true) := by
      refine ⟨_, compare_rules_wf { ingress := none, egress := eg } c
        (fun x hx => absurd hx (List.not_mem_nil x)) hbe hci hce, ?_, ?_, ?_⟩
      · show List.filter
          (fun r => !(List.any [] fun x => rules_match (normSpec r) (normSpec x)))
          c.ingress = c.ingress
        have h1 : List.filter
            (fun r => !(List.any [] fun x => rules_match (normSpec r) (normSpec x)))
            c.ingress = List.filter (fun _ => true) c.ingress :=
          List.filter_congr (fun r _ => rfl)
        rw [h1, List.filter_true]
      · intro r hr
        exact Rule.allDict_of_wf (hci r (List.mem_filter.mp hr).1)
      · intro r hr
        exact Rule.allDict_of_wf (hce r (List.mem_filter.mp hr).1)
    have hrev := revoke_unauthorized_rules_allDict api d hAi hAe
    refine ⟨d, hcomp, hdi, ?_⟩
    rw [hrev]
    show d.unauthorized.ingress.map (fun r => (Direction.ingress, r)) ++
      d.unauthorized.egress.map (fun r => (Direction.egress, r)) = _
    rw [hdi]
  · intro ing c api hci hce hbi
    obtain ⟨d, hcomp, hde, hAi, hAe⟩ :
        ∃ d, compare_rules { ingress := ing, egress := none } c = .ok d ∧
          d.unauthorized.egress = c.egress ∧
          (∀ r ∈ d.unauthorized.ingress, r.allDict = true) ∧
          (∀ r ∈ d.unauthorized.egress, r.allDict = true) := by
      refine ⟨_, compare_rules_wf { ingress := ing, egress := none } c
        hbi (fun x hx => absurd hx (List.not_mem_nil x)) hci hce, ?_, ?_, ?_⟩
      · show List.filter
          (fun r => !(List.any [] fun x => rules_match (normSpec r) (normSpec x)))
          c.egress = c.egress
        have h1 : List.filter
            (fun r => !(List.any [] fun x => rules_match (normSpec r) (normSpec x)))
            c.egress = List.filter (fun _ => true) c.egress :=
          List.filter_congr (fun r _ => rfl)
        rw [h1, List.filter_true]
      · intro r hr
        exact Rule.allDict_of_wf (hci r (List.mem_filter.mp hr).1)
      · intro r hr
        exact Rule.allDict_of_wf (hce r (List.mem_filter.mp hr).1)
    have hrev := revoke_unauthorized_rules_allDict api d hAi hAe
    refine ⟨d, hcomp, hde, ?_⟩
    rw [hrev]
    show d.unauthorized.ingress.map (fun r => (Direction.ingress, r)) ++
      d.unauthorized.egress.map (fun r => (Direction.egress, r)) = _
    rw [hde]

/-- Witness for C10: a baseline without the ingress key against one live
ingress rule, which is reported and submitted for revocation. -/
theorem missing_baseline_key_reports_all_witness :
    ∃ d, compare_rules { ingress := none, egress := some [] }
        { ingress := [ruleOpen], egress := [] } = .ok d ∧
      d.unauthorized.ingress = [ruleOpen] ∧
      (revoke_unauthorized_rules (fun _ _ => .ok ()) d).2 =
        [ruleOpen].map (fun r => (Direction.ingress, r)) ++
          d.unauthorized.egress.map (fun r => (Direction.egress, r)) :=
  missing_baseline_key_reports_all.1 (some []) { ingress := [ruleOpen], egress := [] }
    (fun _ _ => .ok ()) (by decide) (by decide) (by decide)

end Drift
